import Mathlib

set_option maxRecDepth 8000

/-! # Verification of the Shelly BLE RPC transport (src/shelly-ble-rpc.js)

Shallow embedding conventions:
* byte buffers are lists of byte values (`List Nat`, each element `< 256`
  whenever produced by the program itself);
* a characteristic read is an environment-supplied oracle of type
  `Except Unit (Option (List Nat))` — an I/O error, a null buffer, or data;
* time is an explicit millisecond clock, advanced by the modelled `sleep`
  calls and by environment-supplied read durations;
* JavaScript notification handlers run atomically between `await` points, so
  the length-channel history of one exchange is modelled as a sequence of
  events folded over the handler and the polling loop. -/

/-- `Buffer.readUInt32BE(0)`: big-endian 32-bit read of the first four bytes
(line 185 / 259 / 299 / 344 of shelly-ble-rpc.js). Callers always guard
`length >= 4`; shorter buffers yield a junk value that is never used. -/
def readUInt32BE : List Nat → Nat
  | b0 :: b1 :: b2 :: b3 :: _ => b0 * 16777216 + b1 * 65536 + b2 * 256 + b3
  | _ => 0

/-- `Buffer.writeUInt32BE(n, 0)` on a fresh 4-byte buffer (lines 275-276,
326-327). The program only calls it with `n < 2^32` (Node throws otherwise). -/
def writeUInt32BE (n : Nat) : List Nat :=
  [n / 16777216 % 256, n / 65536 % 256, n / 256 % 256, n % 256]

/-- Fuel-indexed body of the chunking loop; for any positive chunk size `m`,
`fuel = p.length` covers every iteration because each one consumes at least
one byte. -/
def chunksByAux (m : Nat) : Nat → List Nat → List (List Nat)
  | 0, _ => []
  | _, [] => []
  | fuel + 1, a :: rest => (a :: rest).take m :: chunksByAux m fuel ((a :: rest).drop m)

/-- The chunking loop of the transmitter (lines 286-291 and 334-338):
`for (offset = 0; offset < bytes.length; offset += m) slice(offset, offset+m)`.
Defined for an arbitrary chunk size `m`; the program uses `m = 20`. -/
def chunksBy (m : Nat) (p : List Nat) : List (List Nat) :=
  chunksByAux m p.length p

/-- JSON values (the subset the program manipulates; JS numbers that occur
here — `Date.now()` ids and user params — are modelled as integers). -/
inductive Json where
  | null
  | bool (b : Bool)
  | num (n : Int)
  | str (s : String)
  | arr (elems : List Json)
  | obj (fields : List (String × Json))

/-- One hexadecimal digit, lower case, as produced by `JSON.stringify` for
control-character escapes. -/
def hexDigit (n : Nat) : Char :=
  if n < 10 then Char.ofNat (48 + n) else Char.ofNat (87 + n)

/-- `JSON.stringify` escaping of a single character inside a string literal. -/
def escapeChar (c : Char) : String :=
  if c = Char.ofNat 34 then "\\\""
  else if c = Char.ofNat 92 then "\\\\"
  else if c = Char.ofNat 8 then "\\b"
  else if c = Char.ofNat 9 then "\\t"
  else if c = Char.ofNat 10 then "\\n"
  else if c = Char.ofNat 12 then "\\f"
  else if c = Char.ofNat 13 then "\\r"
  else if c.toNat < 32 then
    String.mk ['\\', 'u', '0', '0', hexDigit (c.toNat / 16), hexDigit (c.toNat % 16)]
  else String.singleton c

/-- `JSON.stringify` of a string value. -/
def quoteStr (s : String) : String :=
  "\"" ++ String.join (s.toList.map escapeChar) ++ "\""

mutual

/-- `JSON.stringify(v)` (no indentation argument, as in the program):
insertion-ordered object keys, no whitespace. -/
def stringify : Json → String
  | .null => "null"
  | .bool true => "true"
  | .bool false => "false"
  | .num n => toString n
  | .str s => quoteStr s
  | .arr es => "[" ++ stringifyArr es ++ "]"
  | .obj fs => "\x7b" ++ stringifyObj fs ++ "\x7d"

/-- Comma-joined serialization of array elements. -/
def stringifyArr : List Json → String
  | [] => ""
  | [e] => stringify e
  | e :: e2 :: es => stringify e ++ "," ++ stringifyArr (e2 :: es)

/-- Comma-joined serialization of object fields. -/
def stringifyObj : List (String × Json) → String
  | [] => ""
  | [(k, v)] => quoteStr k ++ ":" ++ stringify v
  | (k, v) :: f2 :: fs => quoteStr k ++ ":" ++ stringify v ++ "," ++ stringifyObj (f2 :: fs)

end

/-- UTF-8 encoding of one Unicode scalar value. -/
def utf8Char (c : Char) : List Nat :=
  let n := c.toNat
  if n < 128 then [n]
  else if n < 2048 then [192 + n / 64, 128 + n % 64]
  else if n < 65536 then [224 + n / 4096, 128 + n / 64 % 64, 128 + n % 64]
  else [240 + n / 262144, 128 + n / 4096 % 64, 128 + n / 64 % 64, 128 + n % 64]

/-- `Buffer.from(s, "utf8")` as a byte list. -/
def utf8 (s : String) : List Nat :=
  (s.toList.map utf8Char).flatten

/-- JavaScript truthiness of a JSON value (`undefined` is modelled as the
`none` case of the `Option Json` argument where it occurs). -/
def jsTruthy : Json → Bool
  | .null => false
  | .bool b => b
  | .num n => n != 0
  | .str s => s != ""
  | .arr _ => true
  | .obj _ => true

example : chunksBy 20 [] = [] := by decide
example : chunksBy 2 [1, 2, 3] = [[1, 2], [3]] := by decide

example : stringify (.obj [("id", .num 7), ("src", .str "user_1")]) =
    "\x7b\"id\":7,\"src\":\"user_1\"\x7d" := by decide

example : utf8 "ab" = [97, 98] := by decide

/-! ## Request construction (lines 262-270 and 318-325) -/

/-- The request value object built at lines 262-268 / 318-323. -/
structure RpcRequest where
  id : Nat
  src : String
  method : String
  params : Json

/-- `paramsObject || {}` (JS logical-or on the params argument; `none` models
`null`/`undefined`). -/
def jsOrEmptyObj : Option Json → Json
  | none => .obj []
  | some p => if jsTruthy p then p else .obj []

/-- The request object literal of lines 262-268 (and identically 318-323):
`id: Date.now(), src: "user_1", method, params: paramsObject || \x7b\x7d` —
no `jsonrpc` field. -/
def buildRequest (idSource : Nat) (method : String) (paramsObject : Option Json) :
    RpcRequest :=
  { id := idSource, src := "user_1", method := method,
    params := jsOrEmptyObj paramsObject }

/-- The JSON value that `JSON.stringify(requestObject)` serializes, with the
object-literal key order of the source. -/
def requestJson (r : RpcRequest) : Json :=
  .obj [("id", .num r.id), ("src", .str r.src), ("method", .str r.method),
        ("params", r.params)]

/-- `Buffer.from(JSON.stringify(requestObject), "utf8")` (lines 269-270). -/
def encodeRequestBytes (idSource : Nat) (method : String)
    (paramsObject : Option Json) : List Nat :=
  utf8 (stringify (requestJson (buildRequest idSource method paramsObject)))

/-- Modelled from the spec: the §4.1 codec sentence builds
`params: params ?? {}` — nullish coalescing, so the default applies only when
the caller supplies no params at all. Used to compare the encoder of the spec
against that of the source. -/
def buildRequestSpec (idSource : Nat) (method : String) (paramsObject : Option Json) :
    RpcRequest :=
  { id := idSource, src := "user_1", method := method,
    params := paramsObject.getD (.obj []) }

/-- Modelled from the spec: request bytes per §4.1. -/
def encodeRequestBytesSpec (idSource : Nat) (method : String)
    (paramsObject : Option Json) : List Nat :=
  utf8 (stringify (requestJson (buildRequestSpec idSource method paramsObject)))

/-- The keys of a JSON object (empty for non-objects). -/
def objKeys : Json → List String
  | .obj fs => fs.map Prod.fst
  | _ => []

/-! ## Response decoding (lines 400-413) -/

/-- A character the JS `trim()` removes: ASCII whitespace (tab through
carriage return, space) and the common Unicode additions (NBSP, BOM, line and
paragraph separators). -/
def jsWhitespaceChar (c : Char) : Bool :=
  c.toNat == 32 || (9 ≤ c.toNat && c.toNat ≤ 13) || c.toNat == 160 ||
    c.toNat == 65279 || c.toNat == 8232 || c.toNat == 8233

/-- `String.prototype.trim()` as used at line 401: strip leading and trailing
whitespace. -/
def jsTrim (s : String) : String :=
  String.mk (((s.toList.dropWhile jsWhitespaceChar).reverse.dropWhile
    jsWhitespaceChar).reverse)

/-- Outcome of the decode step: the empty-payload error of line 402, the
invalid-JSON error of lines 408-411 (carrying the diagnostic line printed by
`console.error(JSON.stringify(jsonText))`), or the parsed value. -/
inductive DecodeOutcome where
  | emptyErr
  | invalidJson (logged : String)
  | parsed (v : Json)

/-- Lines 400-413, parametric in the JSON parser (`JSON.parse` succeeding with
a value or throwing): empty/whitespace-only text throws first; otherwise a
parse failure logs the raw text (JSON-quoted) and throws; otherwise the parsed
value is returned. -/
def decodeResponse (parse : String → Option Json) (jsonText : String) :
    DecodeOutcome :=
  if jsTrim jsonText = "" then .emptyErr
  else
    match parse jsonText with
    | none => .invalidJson (stringify (.str jsonText))
    | some v => .parsed v

/-! ## Length-channel models (notification handler, polling loops) -/

/-- Result of one characteristic read: an I/O error, a null buffer, or data. -/
abbrev ChanRead : Type := Except Unit (Option (List Nat))

/-- The RX_CTL notification handler of lines 257-260: a null or short (< 4
byte) buffer is ignored, any other buffer unconditionally overwrites
`expectedLength` with its big-endian word. -/
def rxNotifyHandler (expectedLength : Nat) (buf : Option (List Nat)) : Nat :=
  match buf with
  | none => expectedLength
  | some b => if b.length < 4 then expectedLength else readUInt32BE b

/-- `expectedLength` after a sequence of notifications, starting from the
initial `0` of line 255. -/
def elAfterNotifs (notifs : List (Option (List Nat))) : Nat :=
  notifs.foldl rxNotifyHandler 0

/-- Body of one polling iteration (lines 296-306, identically 341-347): an
error is swallowed, a null or short buffer leaves `expectedLength` alone, a
`>= 4`-byte buffer overwrites it with the decoded word. -/
def pollStep (expectedLength : Nat) (r : ChanRead) : Nat :=
  match r with
  | .error _ => expectedLength
  | .ok none => expectedLength
  | .ok (some lenBuf) =>
      if lenBuf.length ≥ 4 then readUInt32BE lenBuf else expectedLength

/-- The polling loops of lines 295-307 (30 iterations) and 340-349 (20
iterations): iterate while `expectedLength === 0`, reading the length channel
once per iteration. `reads j` is the result of the read performed by loop
iteration `j`. The `break` of the primary loop on a positive value is observably
the same as the loop condition. -/
def pollLoopRun (reads : Nat → ChanRead) : Nat → Nat → Nat → Nat
  | 0, _, expectedLength => expectedLength
  | n + 1, i, expectedLength =>
      if expectedLength = 0 then
        pollLoopRun reads n (i + 1) (pollStep expectedLength (reads i))
      else expectedLength

/-! ## Transmit models (lines 275-291 primary, 326-338 retry) -/

/-- The two GATT characteristics written during transmission. -/
inductive Channel where
  | txCtl
  | data
deriving DecidableEq

/-- One `characteristic.write(bytes, withoutResponse, cb)` call. -/
structure WriteAction where
  chan : Channel
  bytes : List Nat
  withoutResponse : Bool
deriving DecidableEq

/-- Primary transmission (lines 275-291): the 4-byte big-endian length via
`writeWithResponse` (which passes `withoutResponse = false`, lines 146-155),
then each 20-byte chunk via `writeWithResponse`. -/
def primaryTransmitWrites (payload : List Nat) : List WriteAction :=
  ⟨.txCtl, writeUInt32BE payload.length, false⟩ ::
    (chunksBy 20 payload).map (fun c => ⟨.data, c, false⟩)

/-- Retry transmission (lines 326-338): the length via `writeWithResponse`,
then each 20-byte chunk via `dataChar.write(chunk, false, cb)` — the second
argument is `withoutResponse`, so this is also an acknowledged write even
though the surrounding log lines announce "without response". -/
def retryTransmitWrites (payload : List Nat) : List WriteAction :=
  ⟨.txCtl, writeUInt32BE payload.length, false⟩ ::
    (chunksBy 20 payload).map (fun c => ⟨.data, c, false⟩)

/-! ## Channel flusher (flushChannels, lines 180-198) -/

/-- Environment of one `flushChannels` call: the single RX_CTL read, the
stream of data-channel reads, and the wall-clock duration of each data read
(the drain loop contains no sleep, so only read durations advance time). -/
structure FlushEnv where
  rxRead : ChanRead
  dataReads : Nat → ChanRead
  dataDur : Nat → Nat

/-- The drain loop of lines 187-194, fuel-indexed: while `drained < len` and
the 1-second deadline has not passed, read the data channel; a thrown read
error aborts the whole flush (caught at line 197), a null or empty chunk
breaks, a non-empty chunk adds its length. Returns (number of data reads
performed, bytes drained). Every continuing iteration drains at least one
byte, so `fuel = len` never cuts the loop short. -/
def drainLoop (dataReads : Nat → ChanRead) (dataDur : Nat → Nat)
    (len deadline : Nat) : Nat → Nat → Nat → Nat → Nat × Nat
  | 0, i, drained, _ => (i, drained)
  | fuel + 1, i, drained, now =>
      if drained < len ∧ now < deadline then
        match dataReads i with
        | .error _ => (i + 1, drained)
        | .ok none => (i + 1, drained)
        | .ok (some c) =>
            if c.length = 0 then (i + 1, drained)
            else drainLoop dataReads dataDur len deadline fuel (i + 1)
              (drained + c.length) (now + dataDur i)
      else (i, drained)

/-- The pending-frame length that `flushChannels` sees: 0 unless the single
RX_CTL read succeeds with a `>= 4`-byte buffer (lines 183-186). -/
def flushPendingLen (env : FlushEnv) : Nat :=
  match env.rxRead with
  | .ok (some lenBuf) => if lenBuf.length ≥ 4 then readUInt32BE lenBuf else 0
  | _ => 0

/-- `flushChannels` (lines 180-198): one RX_CTL read; if it reports a
positive length, drain the data channel against a `Date.now() + 1000`
deadline. All errors are swallowed by the surrounding try/catch, so the
function is total. Returns (data reads performed, bytes drained). -/
def flushChannels (env : FlushEnv) : Nat × Nat :=
  let len := flushPendingLen env
  if len > 0 then drainLoop env.dataReads env.dataDur len 1000 len 0 0 0
  else (0, 0)

/-! ## Receiver loop (lines 353-392) -/

/-- `bestEffort` of line 353: fixed once, when the data-read loop begins. -/
def bestEffortOf (expectedLength : Nat) : Bool :=
  expectedLength == 0

/-- `maxDurationMs` of line 361. -/
def maxDurationMs (bestEffort : Bool) : Nat :=
  if bestEffort then 5000 else 20000

/-- The empty-read backoff of line 385: `Math.min(200 + consecutiveEmpty * 50,
500)`, where `consecutiveEmpty` has already been incremented for the current
empty read. -/
def emptyBackoff (consecutiveEmpty : Nat) : Nat :=
  min (200 + consecutiveEmpty * 50) 500

/-- The response-read loop of lines 359-391, fuel-indexed. Arguments past the
environment: remaining fuel, attempt counter `i`, accumulated `received`
bytes, `consecutiveEmpty`, and the clock `now` (milliseconds since
`startedData`). `expSeq j` is the value of `expectedLength` at the loop
condition of iteration `j` (notifications may rewrite it between awaits).
Per iteration: continue while (known-length) fewer bytes than expected have
arrived or (best-effort) less than `maxDur` has elapsed; break once the clock
exceeds `maxDur`; then read — an error sleeps 250ms, an empty or null chunk
increments `consecutiveEmpty` and sleeps the backoff, data is appended and
resets `consecutiveEmpty`. Returns `some (received, exit clock, attempts)`
or `none` when the fuel runs out before the loop exits. -/
def recvLoop (reads : Nat → ChanRead) (dur : Nat → Nat) (expSeq : Nat → Nat)
    (bestEffort : Bool) (maxDur : Nat) :
    Nat → Nat → List Nat → Nat → Nat → Option (List Nat × Nat × Nat)
  | 0, _, _, _, _ => none
  | fuel + 1, i, received, consecutiveEmpty, now =>
      if (¬bestEffort ∧ received.length < expSeq i) ∨ (bestEffort ∧ now < maxDur) then
        if now > maxDur then some (received, now, i)
        else
          match reads i with
          | .error _ =>
              recvLoop reads dur expSeq bestEffort maxDur fuel (i + 1) received
                consecutiveEmpty (now + dur i + 250)
          | .ok none =>
              recvLoop reads dur expSeq bestEffort maxDur fuel (i + 1) received
                (consecutiveEmpty + 1) (now + dur i + emptyBackoff (consecutiveEmpty + 1))
          | .ok (some c) =>
              if c.length = 0 then
                recvLoop reads dur expSeq bestEffort maxDur fuel (i + 1) received
                  (consecutiveEmpty + 1) (now + dur i + emptyBackoff (consecutiveEmpty + 1))
              else
                recvLoop reads dur expSeq bestEffort maxDur fuel (i + 1)
                  (received ++ c) 0 (now + dur i)
      else some (received, now, i)

/-! ## Session orchestration (sendRpcAndReceive, lines 200-417) -/

/-- Environment of one exchange: the notifications delivered before the
primary polling loop starts, the primary and retry polling reads, the
data-loop reads with durations, the `Date.now()` value when the primary
request is built, any extra time spent awaiting I/O between the two request
builds (beyond the mandatory sleeps), and the JSON parser. -/
structure ExchangeEnv where
  notifs : List (Option (List Nat))
  pollReads : Nat → ChanRead
  retryPollReads : Nat → ChanRead
  dataReads : Nat → ChanRead
  dataDur : Nat → Nat
  t0 : Nat
  extraElapsed : Nat
  method : String
  params : Option Json

/-- The primary request (lines 262-268), built at clock `t0`. -/
def primaryRequest (env : ExchangeEnv) : RpcRequest :=
  buildRequest env.t0 env.method env.params

/-- Primary request payload bytes (lines 269-270). -/
def primaryPayload (env : ExchangeEnv) : List Nat :=
  utf8 (stringify (requestJson (primaryRequest env)))

/-- `expectedLength` at the retry check of line 310: the notifications folded
into the handler, then the 30-iteration polling loop of lines 295-307. -/
def elAfterPrimaryPoll (env : ExchangeEnv) : Nat :=
  pollLoopRun env.pollReads 30 1 (elAfterNotifs env.notifs)

/-- The retry condition of line 310:
`expectedLength === 0 && received.length === 0`. -/
def retryCondition (expectedLength : Nat) (received : List Nat) : Bool :=
  expectedLength == 0 && received.length == 0

/-- `received` at the retry check: initialized to `Buffer.alloc(0)` at line
256 and never appended to before line 310 (the data-read loop starts at line
352). -/
def receivedAtRetryCheck : List Nat := []

/-- Whether the exchange performs the single fallback resend of lines
309-350. -/
def retryPerformed (env : ExchangeEnv) : Bool :=
  retryCondition (elAfterPrimaryPoll env) receivedAtRetryCheck

/-- `Date.now()` at the retry rebuild (line 319): the primary build time plus
the mandatory 1000ms settle sleep (line 281), the 15ms sleep after each of
the primary chunks (line 290), and whatever additional time the environment
spent on awaited I/O and polling sleeps. -/
def retryTime (env : ExchangeEnv) : Nat :=
  env.t0 + 1000 + 15 * (chunksBy 20 (primaryPayload env)).length + env.extraElapsed

/-- The rebuilt retry request (lines 318-323): fresh `Date.now()` id, same
`src`, `method` and `params` expressions. -/
def retryRequest (env : ExchangeEnv) : RpcRequest :=
  buildRequest (retryTime env) env.method env.params

/-- Retry request payload bytes (lines 324-325). -/
def retryPayload (env : ExchangeEnv) : List Nat :=
  utf8 (stringify (requestJson (retryRequest env)))

/-- Number of transmission attempts the orchestrator performs: the primary
one, plus the single straight-line retry block when its condition fired.
There is no loop around the retry block. -/
def attemptCount (env : ExchangeEnv) : Nat :=
  if retryPerformed env then 2 else 1

/-- `expectedLength` when the data-read loop begins (line 353): after the
own 20-iteration polling loop of the retry block (lines 340-349, starting from the
reset of line 314) when the retry ran, else the primary value. -/
def elAtRecvStart (env : ExchangeEnv) : Nat :=
  if retryPerformed env then pollLoopRun env.retryPollReads 20 1 0
  else elAfterPrimaryPoll env

/-- Every characteristic write the exchange performs, in order. -/
def exchangeWrites (env : ExchangeEnv) : List WriteAction :=
  primaryTransmitWrites (primaryPayload env) ++
    (if retryPerformed env then retryTransmitWrites (retryPayload env) else [])

/-- The data-read loop result of the exchange (fuel large enough for the
20-second known-length budget whenever reads take at least 1ms). -/
def exchangeRecv (env : ExchangeEnv) : Option (List Nat × Nat × Nat) :=
  let el := elAtRecvStart env
  recvLoop env.dataReads env.dataDur (fun _ => el) (bestEffortOf el)
    (maxDurationMs (bestEffortOf el)) 20002 0 [] 0 0

/-! ## Helper lemmas -/

/-- Concatenating the chunk-loop output reproduces the payload, for any fuel
covering the payload length. -/
theorem chunksByAux_flatten (m : Nat) (hm : 0 < m) :
    ∀ (fuel : Nat) (p : List Nat), p.length ≤ fuel →
      (chunksByAux m fuel p).flatten = p := by
  intro fuel
  induction fuel with
  | zero =>
      intro p hp
      cases p with
      | nil => rfl
      | cons a t => simp at hp
  | succ fuel ih =>
      intro p hp
      cases p with
      | nil => rfl
      | cons a rest =>
          have hdrop : ((a :: rest).drop m).length ≤ fuel := by
            have := List.length_drop m (a :: rest)
            simp at hp ⊢
            omega
          calc ((a :: rest).take m :: chunksByAux m fuel ((a :: rest).drop m)).flatten
              = (a :: rest).take m ++ (chunksByAux m fuel ((a :: rest).drop m)).flatten := by
                rw [List.flatten_cons]
            _ = (a :: rest).take m ++ (a :: rest).drop m := by rw [ih _ hdrop]
            _ = a :: rest := List.take_append_drop m (a :: rest)

/-- Concatenating the chunks of any positive chunk size reproduces the
payload. -/
theorem chunksBy_flatten (m : Nat) (hm : 0 < m) (p : List Nat) :
    (chunksBy m p).flatten = p :=
  chunksByAux_flatten m hm p.length p (Nat.le_refl _)

/-- Every chunk produced with fuel covering the payload is non-empty and no
longer than the chunk size. -/
theorem chunksByAux_mem (m : Nat) (hm : 0 < m) :
    ∀ (fuel : Nat) (p : List Nat), p.length ≤ fuel →
      ∀ c ∈ chunksByAux m fuel p, c.length ≤ m ∧ c ≠ [] := by
  intro fuel
  induction fuel with
  | zero =>
      intro p hp c hc
      cases p with
      | nil => simp [chunksByAux] at hc
      | cons a t => simp at hp
  | succ fuel ih =>
      intro p hp c hc
      cases p with
      | nil => simp [chunksByAux] at hc
      | cons a rest =>
          rcases List.mem_cons.mp hc with hc | hc
          · subst hc
            constructor
            · simp [List.length_take]
            · intro hnil
              rcases List.take_eq_nil_iff.mp hnil with h0 | h0
              · exact absurd h0 (Nat.pos_iff_ne_zero.mp hm)
              · simp at h0
          · have hdrop : ((a :: rest).drop m).length ≤ fuel := by
              have := List.length_drop m (a :: rest)
              simp at hp ⊢
              omega
            exact ih _ hdrop c hc

/-- Every chunk produced by a positive chunk size is non-empty and no longer
than the chunk size. -/
theorem chunksBy_mem (m : Nat) (hm : 0 < m) (p : List Nat) :
    ∀ c ∈ chunksBy m p, c.length ≤ m ∧ c ≠ [] :=
  chunksByAux_mem m hm p.length p (Nat.le_refl _)

/-- The 4-byte big-endian encode/decode round trip. -/
theorem readUInt32BE_writeUInt32BE (n : Nat) (h : n < 4294967296) :
    readUInt32BE (writeUInt32BE n) = n := by
  simp only [writeUInt32BE, readUInt32BE]
  omega

/-- A polling loop started with a positive `expectedLength` performs no
iterations: its condition `expectedLength === 0` is false. -/
theorem pollLoopRun_of_pos (reads : Nat → ChanRead) (n i el : Nat) (h : 0 < el) :
    pollLoopRun reads n i el = el := by
  cases n with
  | zero => rfl
  | succ n =>
      rw [pollLoopRun]
      simp [Nat.pos_iff_ne_zero.mp h]

/-- A length-channel read that carries no signal: an error, a null buffer, or
fewer than 4 bytes. -/
def lengthNoSignal (r : ChanRead) : Prop :=
  match r with
  | .ok (some b) => b.length < 4
  | _ => True

/-- A no-signal read leaves the polled `expectedLength` unchanged. -/
theorem pollStep_noSignal (el : Nat) (r : ChanRead) (h : lengthNoSignal r) :
    pollStep el r = el := by
  match r with
  | .error e => rfl
  | .ok none => rfl
  | .ok (some b) =>
      simp only [lengthNoSignal] at h
      simp [pollStep, Nat.not_le.mpr h]

/-- A polling loop fed only no-signal reads leaves `expectedLength`
unchanged and raises nothing. -/
theorem pollLoopRun_noSignal (reads : Nat → ChanRead)
    (h : ∀ j, lengthNoSignal (reads j)) :
    ∀ (n i el : Nat), pollLoopRun reads n i el = el := by
  intro n
  induction n with
  | zero => intro i el; rfl
  | succ n ih =>
      intro i el
      rw [pollLoopRun]
      by_cases h0 : el = 0
      · rw [if_pos h0, pollStep_noSignal el (reads i) (h i), ih]
      · rw [if_neg h0]

/-- The drain loop never returns a read count below its starting index. -/
theorem drainLoop_count_ge (dataReads : Nat → ChanRead) (dataDur : Nat → Nat)
    (len deadline : Nat) :
    ∀ (fuel i drained now : Nat),
      i ≤ (drainLoop dataReads dataDur len deadline fuel i drained now).1 := by
  intro fuel
  induction fuel with
  | zero => intro i drained now; exact Nat.le_refl i
  | succ fuel ih =>
      intro i drained now
      rw [drainLoop]
      split
      · cases hr : dataReads i with
        | error e => simp
        | ok o =>
            cases o with
            | none => simp
            | some c =>
                by_cases hc : c.length = 0
                · simp [hc]
                · simp only [hc, if_false]
                  exact Nat.le_trans (Nat.le_succ i) (ih (i + 1) _ _)
      · exact Nat.le_refl i

/-- The drain loop performs at most `len - drained` reads: each continuing
read drains at least one byte, so the loop stops by the reported count. -/
theorem drainLoop_count_le (dataReads : Nat → ChanRead) (dataDur : Nat → Nat)
    (len deadline : Nat) :
    ∀ (fuel i drained now : Nat), drained < len →
      (drainLoop dataReads dataDur len deadline fuel i drained now).1 ≤
        i + (len - drained) := by
  intro fuel
  induction fuel with
  | zero =>
      intro i drained now hd
      simp only [drainLoop]
      omega
  | succ fuel ih =>
      intro i drained now hd
      rw [drainLoop]
      split
      · cases hr : dataReads i with
        | error e => simp; omega
        | ok o =>
            cases o with
            | none => simp; omega
            | some c =>
                by_cases hc : c.length = 0
                · simp [hc]; omega
                · simp only [hc, if_false]
                  by_cases hdl : drained + c.length < len
                  · have := ih (i + 1) (drained + c.length) (now + dataDur i) hdl
                    omega
                  · have hstop : (drainLoop dataReads dataDur len deadline fuel (i + 1)
                        (drained + c.length) (now + dataDur i)).1 = i + 1 := by
                      cases fuel with
                      | zero => rfl
                      | succ fuel2 =>
                          rw [drainLoop]
                          rw [if_neg]
                          intro hcon
                          exact hdl hcon.1
                    omega
      · omega

/-- A read on which the drain loop stops: an error, a null buffer, or an
empty chunk. -/
def drainBreakRead (r : ChanRead) : Prop :=
  match r with
  | .ok (some c) => c.length = 0
  | _ => True

/-- The drain loop stops no later than one read past the first breaking
read. -/
theorem drainLoop_stop_at_break (dataReads : Nat → ChanRead) (dataDur : Nat → Nat)
    (len deadline j : Nat) (hj : drainBreakRead (dataReads j)) :
    ∀ (fuel i drained now : Nat), i ≤ j →
      (drainLoop dataReads dataDur len deadline fuel i drained now).1 ≤ j + 1 := by
  intro fuel
  induction fuel with
  | zero => intro i drained now hij; simp only [drainLoop]; omega
  | succ fuel ih =>
      intro i drained now hij
      rw [drainLoop]
      split
      · cases hr : dataReads i with
        | error e => simp; omega
        | ok o =>
            cases o with
            | none => simp; omega
            | some c =>
                by_cases hc : c.length = 0
                · simp [hc]; omega
                · simp only [hc, if_false]
                  have hine : i ≠ j := by
                    intro hcon
                    subst hcon
                    rw [hr] at hj
                    exact hc hj
                  exact ih (i + 1) _ _ (by omega)
      · omega

/-- Once the clock has reached the deadline the drain loop reads nothing
more. -/
theorem drainLoop_deadline (dataReads : Nat → ChanRead) (dataDur : Nat → Nat)
    (len deadline : Nat) (fuel i drained now : Nat) (h : deadline ≤ now) :
    drainLoop dataReads dataDur len deadline fuel i drained now = (i, drained) := by
  cases fuel with
  | zero => rfl
  | succ fuel =>
      rw [drainLoop]
      rw [if_neg]
      intro hcon
      exact absurd hcon.2 (Nat.not_lt.mpr h)

/-- The backoff delay never exceeds its 500ms cap. -/
theorem emptyBackoff_le (n : Nat) : emptyBackoff n ≤ 500 :=
  Nat.min_le_right _ _

/-- The backoff delay is `200 + 50·n` until the cap binds (at the seventh
consecutive empty read). -/
theorem emptyBackoff_eq (n : Nat) (h : n ≤ 6) : emptyBackoff n = 200 + 50 * n := by
  simp only [emptyBackoff]
  omega

/-- When every read takes at least one millisecond, the clock strictly
advances each iteration, so fuel covering the time budget suffices: the
receive loop exits rather than running out of fuel. -/
theorem recvLoop_isSome (reads : Nat → ChanRead) (dur : Nat → Nat)
    (expSeq : Nat → Nat) (bestEffort : Bool) (maxDur : Nat)
    (hdur : ∀ j, 1 ≤ dur j) :
    ∀ (fuel i : Nat) (received : List Nat) (consecutiveEmpty now : Nat),
      1 ≤ fuel → maxDur + 2 ≤ fuel + now →
      (recvLoop reads dur expSeq bestEffort maxDur fuel i received
        consecutiveEmpty now).isSome := by
  intro fuel
  induction fuel with
  | zero => intro i received c now h1 _; omega
  | succ fuel ih =>
      intro i received c now _ h2
      rw [recvLoop]
      split
      · by_cases hnow : now > maxDur
        · simp [hnow]
        · rw [if_neg hnow]
          have hfuel : 1 ≤ fuel := by omega
          cases hr : reads i with
          | error e =>
              exact ih (i + 1) received c (now + dur i + 250) hfuel
                (by have := hdur i; omega)
          | ok o =>
              cases o with
              | none =>
                  exact ih (i + 1) received (c + 1)
                    (now + dur i + emptyBackoff (c + 1)) hfuel
                    (by have := hdur i; omega)
              | some ch =>
                  by_cases hc : ch.length = 0
                  · simp only [hc, if_true]
                    exact ih (i + 1) received (c + 1)
                      (now + dur i + emptyBackoff (c + 1)) hfuel
                      (by have := hdur i; omega)
                  · simp only [hc, if_false]
                    exact ih (i + 1) (received ++ ch) 0 (now + dur i) hfuel
                      (by have := hdur i; omega)
      · simp

/-- Exit-time upper bound: every state the loop reaches has
`now ≤ maxDur + D + 500` (reads take at most `D`; one backoff or error sleep
is at most 500), so the exit clock obeys the same bound. -/
theorem recvLoop_exit_le (reads : Nat → ChanRead) (dur : Nat → Nat)
    (expSeq : Nat → Nat) (bestEffort : Bool) (maxDur D : Nat)
    (hdur : ∀ j, dur j ≤ D) :
    ∀ (fuel i : Nat) (received : List Nat) (consecutiveEmpty now : Nat)
      (res : List Nat) (t a : Nat),
      now ≤ maxDur + D + 500 →
      recvLoop reads dur expSeq bestEffort maxDur fuel i received
        consecutiveEmpty now = some (res, t, a) →
      t ≤ maxDur + D + 500 := by
  intro fuel
  induction fuel with
  | zero =>
      intro i received c now res t a hnow heq
      simp [recvLoop] at heq
  | succ fuel ih =>
      intro i received c now res t a hnow heq
      rw [recvLoop] at heq
      split at heq
      · by_cases hgt : now > maxDur
        · rw [if_pos hgt] at heq
          injection heq with heq2
          injection heq2 with _ heq3
          injection heq3 with h4 h5
          omega
        · rw [if_neg hgt] at heq
          have hnow2 : now ≤ maxDur := Nat.not_lt.mp hgt
          cases hr : reads i with
          | error e =>
              rw [hr] at heq
              exact ih (i + 1) received c (now + dur i + 250) res t a
                (by have := hdur i; omega) heq
          | ok o =>
              cases o with
              | none =>
                  rw [hr] at heq
                  exact ih (i + 1) received (c + 1)
                    (now + dur i + emptyBackoff (c + 1)) res t a
                    (by have h5 := emptyBackoff_le (c + 1); have := hdur i; omega) heq
              | some ch =>
                  rw [hr] at heq
                  by_cases hc : ch.length = 0
                  · simp only [hc, if_true] at heq
                    exact ih (i + 1) received (c + 1)
                      (now + dur i + emptyBackoff (c + 1)) res t a
                      (by have h5 := emptyBackoff_le (c + 1); have := hdur i; omega) heq
                  · simp only [hc, if_false] at heq
                    exact ih (i + 1) (received ++ ch) 0 (now + dur i) res t a
                      (by have := hdur i; omega) heq
      · injection heq with heq2
        injection heq2 with _ heq3
        injection heq3 with h4 h5
        omega

/-- In best-effort mode the loop only exits once the clock has reached the
window: the exit time is at least `maxDur`. -/
theorem recvLoop_bestEffort_exit_ge (reads : Nat → ChanRead) (dur : Nat → Nat)
    (expSeq : Nat → Nat) (maxDur : Nat) :
    ∀ (fuel i : Nat) (received : List Nat) (consecutiveEmpty now : Nat)
      (res : List Nat) (t a : Nat),
      recvLoop reads dur expSeq true maxDur fuel i received
        consecutiveEmpty now = some (res, t, a) →
      maxDur ≤ t := by
  intro fuel
  induction fuel with
  | zero =>
      intro i received c now res t a heq
      simp [recvLoop] at heq
  | succ fuel ih =>
      intro i received c now res t a heq
      rw [recvLoop] at heq
      split at heq
      · rename_i hguard
        by_cases hgt : now > maxDur
        · rw [if_pos hgt] at heq
          injection heq with heq2
          injection heq2 with _ heq3
          injection heq3 with h4 h5
          omega
        · rw [if_neg hgt] at heq
          cases hr : reads i with
          | error e =>
              rw [hr] at heq
              exact ih _ _ _ _ _ _ _ heq
          | ok o =>
              cases o with
              | none =>
                  rw [hr] at heq
                  exact ih _ _ _ _ _ _ _ heq
              | some ch =>
                  rw [hr] at heq
                  by_cases hc : ch.length = 0
                  · simp only [hc, if_true] at heq
                    exact ih _ _ _ _ _ _ _ heq
                  · simp only [hc, if_false] at heq
                    exact ih _ _ _ _ _ _ _ heq
      · rename_i hguard
        simp only [Bool.not_eq_true, not_or, not_and] at hguard
        injection heq with heq2
        injection heq2 with _ heq3
        injection heq3 with h4 h5
        have : ¬now < maxDur := hguard.2 trivial
        omega

/-- In known-length mode the loop only exits with enough accumulated bytes or
past the 20-second budget. -/
theorem recvLoop_known_exit (reads : Nat → ChanRead) (dur : Nat → Nat)
    (expSeq : Nat → Nat) (maxDur : Nat) :
    ∀ (fuel i : Nat) (received : List Nat) (consecutiveEmpty now : Nat)
      (res : List Nat) (t a : Nat),
      recvLoop reads dur expSeq false maxDur fuel i received
        consecutiveEmpty now = some (res, t, a) →
      expSeq a ≤ res.length ∨ maxDur < t := by
  intro fuel
  induction fuel with
  | zero =>
      intro i received c now res t a heq
      simp [recvLoop] at heq
  | succ fuel ih =>
      intro i received c now res t a heq
      rw [recvLoop] at heq
      split at heq
      · by_cases hgt : now > maxDur
        · rw [if_pos hgt] at heq
          injection heq with heq2
          injection heq2 with _ heq3
          injection heq3 with h4 h5
          right
          omega
        · rw [if_neg hgt] at heq
          cases hr : reads i with
          | error e =>
              rw [hr] at heq
              exact ih _ _ _ _ _ _ _ heq
          | ok o =>
              cases o with
              | none =>
                  rw [hr] at heq
                  exact ih _ _ _ _ _ _ _ heq
              | some ch =>
                  rw [hr] at heq
                  by_cases hc : ch.length = 0
                  · simp only [hc, if_true] at heq
                    exact ih _ _ _ _ _ _ _ heq
                  · simp only [hc, if_false] at heq
                    exact ih _ _ _ _ _ _ _ heq
      · rename_i hguard
        simp only [not_or, not_and] at hguard
        injection heq with heq2
        injection heq2 with hres heq3
        injection heq3 with h4 h5
        left
        subst hres h5
        have := hguard.1
        simp at this
        omega

/-- In best-effort mode the loop condition never consults `expectedLength`:
any two histories of `expectedLength` values yield identical loop behaviour. -/
theorem recvLoop_bestEffort_expSeq (reads : Nat → ChanRead) (dur : Nat → Nat)
    (expSeq expSeq2 : Nat → Nat) (maxDur : Nat) :
    ∀ (fuel i : Nat) (received : List Nat) (consecutiveEmpty now : Nat),
      recvLoop reads dur expSeq true maxDur fuel i received consecutiveEmpty now =
      recvLoop reads dur expSeq2 true maxDur fuel i received consecutiveEmpty now := by
  intro fuel
  induction fuel with
  | zero => intro i received c now; rfl
  | succ fuel ih =>
      intro i received c now
      rw [recvLoop, recvLoop]
      have hguard : ((¬(true : Bool) ∧ received.length < expSeq i) ∨
          ((true : Bool) ∧ now < maxDur)) ↔
          ((¬(true : Bool) ∧ received.length < expSeq2 i) ∨
          ((true : Bool) ∧ now < maxDur)) := by
        simp
      by_cases hg : (¬(true : Bool) ∧ received.length < expSeq i) ∨
          ((true : Bool) ∧ now < maxDur)
      · rw [if_pos hg, if_pos (hguard.mp hg)]
        by_cases hgt : now > maxDur
        · rw [if_pos hgt, if_pos hgt]
        · rw [if_neg hgt, if_neg hgt]
          cases hr : reads i with
          | error e => exact ih _ _ _ _
          | ok o =>
              cases o with
              | none => exact ih _ _ _ _
              | some ch =>
                  by_cases hc : ch.length = 0
                  · simp only [hc, if_true]
                    exact ih _ _ _ _
                  · simp only [hc, if_false]
                    exact ih _ _ _ _
      · rw [if_neg hg, if_neg (fun hcon => hg (hguard.mpr hcon))]

/-! ## Claim theorems -/

/-- Claim C1 counterexample: after a first ≥4-byte notification sets
`expectedLength` to the positive value 5, a second ≥4-byte notification does
not leave it unchanged — the handler of lines 257-260 overwrites it with 7. -/
theorem c1_counterexample :
    elAfterNotifs [some [0, 0, 0, 5]] = 5 ∧
    (0 : Nat) < 5 ∧
    ([0, 0, 0, 7] : List Nat).length ≥ 4 ∧
    rxNotifyHandler (elAfterNotifs [some [0, 0, 0, 5]]) (some [0, 0, 0, 7]) = 7 ∧
    rxNotifyHandler (elAfterNotifs [some [0, 0, 0, 5]]) (some [0, 0, 0, 7]) ≠
      elAfterNotifs [some [0, 0, 0, 5]] := by
  decide

/-- Claim C1 (amended): once `expectedLength` is positive, the polling loops
(whose condition is `expectedLength === 0`) perform no further reads and
leave it unchanged; but a later ≥4-byte notification always overwrites it
with the notified word — first-positive-wins holds for the polling path only,
not for notifications. -/
theorem c1_amended (reads : Nat → ChanRead) (n i el : Nat) (hel : 0 < el)
    (b : List Nat) (hb : 4 ≤ b.length) :
    pollLoopRun reads n i el = el ∧
    rxNotifyHandler el (some b) = readUInt32BE b := by
  refine ⟨pollLoopRun_of_pos reads n i el hel, ?_⟩
  simp [rxNotifyHandler, Nat.not_lt.mpr hb]

/-- Witness for `c1_amended` at a concrete positive length and notification. -/
theorem c1_amended_witness :
    pollLoopRun (fun _ => Except.error ()) 30 1 5 = 5 ∧
    rxNotifyHandler 5 (some [0, 0, 0, 9]) = readUInt32BE [0, 0, 0, 9] :=
  c1_amended (fun _ => Except.error ()) 30 1 5 (by decide) [0, 0, 0, 9] (by decide)

/-- Claim C2: at the failing input (a one-byte payload), both the primary
chunk write (via `writeWithResponse`, line 289) and the retry chunk write
(`dataChar.write(chunk, false, cb)`, line 336) pass `withoutResponse =
false`, i.e. both are acknowledged writes. The log lines of the retry announce
"writeWithoutResponse" / "(without response)", so the code contradicts its
own documentation: the second argument should be `true` for an unacknowledged
write. -/
theorem c2_retry_chunk_writes_acknowledged :
    (∀ w ∈ primaryTransmitWrites [1], w.withoutResponse = false) ∧
    retryTransmitWrites [1] =
      [⟨.txCtl, [0, 0, 0, 1], false⟩, ⟨.data, [1], false⟩] ∧
    (∀ w ∈ retryTransmitWrites [1], w.withoutResponse = false) := by
  decide

/-- Claim C4 counterexample: for the params value `false` (a JS-falsy but
non-nullish JSON value), the transmitted bytes serialize `params: {}` — the
`paramsObject || {}` of line 267 — and differ from the UTF-8 encoding of the
object carrying `params: false` that the claim prescribes (and that the
builder of the spec, `params ?? empty-object`, produces). -/
theorem c4_counterexample :
    encodeRequestBytes 1 "m" (some (.bool false)) =
      utf8 (stringify (.obj [("id", .num 1), ("src", .str "user_1"),
        ("method", .str "m"), ("params", .obj [])])) ∧
    encodeRequestBytes 1 "m" (some (.bool false)) ≠
      utf8 (stringify (.obj [("id", .num 1), ("src", .str "user_1"),
        ("method", .str "m"), ("params", .bool false)])) ∧
    encodeRequestBytesSpec 1 "m" (some (.bool false)) =
      utf8 (stringify (.obj [("id", .num 1), ("src", .str "user_1"),
        ("method", .str "m"), ("params", .bool false)])) := by
  decide

/-- Claim C4 (amended): the transmitted request bytes are exactly the UTF-8
encoding of the JSON object with keys `id`, `src: "user_1"`, `method`,
`params` in that order and no `jsonrpc` key, where `params` defaults to the
empty object whenever the caller supplies none **or any JS-falsy value**
(`null`, `false`, `0`, `""`); a truthy params value is serialized as given. -/
theorem c4_amended (idSource : Nat) (method : String) (paramsObject : Option Json) :
    (∀ p, paramsObject = some p → jsTruthy p = true →
      encodeRequestBytes idSource method paramsObject =
        encodeRequestBytesSpec idSource method paramsObject) ∧
    ((paramsObject = none ∨ ∃ p, paramsObject = some p ∧ jsTruthy p = false) →
      encodeRequestBytes idSource method paramsObject =
        encodeRequestBytesSpec idSource method (some (.obj []))) ∧
    objKeys (requestJson (buildRequest idSource method paramsObject)) =
      ["id", "src", "method", "params"] ∧
    "jsonrpc" ∉ objKeys (requestJson (buildRequest idSource method paramsObject)) := by
  have hkeys : objKeys (requestJson (buildRequest idSource method paramsObject)) =
      ["id", "src", "method", "params"] := rfl
  refine ⟨?_, ?_, hkeys, ?_⟩
  case refine_3 => rw [hkeys]; decide
  · intro p hp htr
    subst hp
    simp [encodeRequestBytes, encodeRequestBytesSpec, buildRequest,
      buildRequestSpec, jsOrEmptyObj, htr]
  · intro h
    rcases h with h | ⟨p, hp, hfa⟩
    · subst h
      rfl
    · subst hp
      simp [encodeRequestBytes, encodeRequestBytesSpec, buildRequest,
        buildRequestSpec, jsOrEmptyObj, hfa]

/-- Witness for `c4_amended`: with no params supplied the transmitted bytes
equal the spec encoding of `params: {}`. -/
theorem c4_amended_witness :
    encodeRequestBytes 1 "m" none = encodeRequestBytesSpec 1 "m" (some (.obj [])) :=
  (c4_amended 1 "m" none).2.1 (Or.inl rfl)

/-- Claim C5: the primary transmission first writes exactly the 4-byte
big-endian encoding of the payload length to the length channel, then the
payload as in-order data chunks of at most 20 bytes, none empty, whose
concatenation is the payload; and for every chunk-size choice the
concatenation of the chunks reproduces the payload (boundary transparency). -/
theorem c5_transmit_framing (payload : List Nat)
    (hlen : payload.length < 4294967296) (m : Nat) (hm : 0 < m) :
    (primaryTransmitWrites payload).head? =
      some ⟨.txCtl, writeUInt32BE payload.length, false⟩ ∧
    (writeUInt32BE payload.length).length = 4 ∧
    readUInt32BE (writeUInt32BE payload.length) = payload.length ∧
    ((primaryTransmitWrites payload).tail.map WriteAction.bytes).flatten = payload ∧
    (∀ w ∈ (primaryTransmitWrites payload).tail,
      w.chan = Channel.data ∧ w.bytes.length ≤ 20 ∧ w.bytes ≠ []) ∧
    (chunksBy m payload).flatten = payload ∧
    (∀ c ∈ chunksBy m payload, c.length ≤ m) := by
  refine ⟨rfl, rfl, readUInt32BE_writeUInt32BE _ hlen, ?_, ?_, ?_, ?_⟩
  · simp only [primaryTransmitWrites, List.tail_cons, List.map_map]
    have h1 : ∀ l : List (List Nat),
        l.map (WriteAction.bytes ∘ fun c => WriteAction.mk Channel.data c false) = l := by
      intro l
      induction l with
      | nil => rfl
      | cons x xs ih => simp only [List.map_cons, ih, Function.comp_apply]
    rw [h1]
    exact chunksBy_flatten 20 (by decide) payload
  · intro w hw
    simp only [primaryTransmitWrites, List.tail_cons, List.mem_map] at hw
    rcases hw with ⟨c, hc, hw⟩
    have := chunksBy_mem 20 (by decide) payload c hc
    subst hw
    exact ⟨rfl, this.1, by simpa using this.2⟩
  · exact chunksBy_flatten m hm payload
  · intro c hc
    exact (chunksBy_mem m hm payload c hc).1

/-- Witness for `c5_transmit_framing` at a concrete payload and chunk size. -/
theorem c5_transmit_framing_witness :
    readUInt32BE (writeUInt32BE ([1, 2, 3] : List Nat).length) =
      ([1, 2, 3] : List Nat).length ∧
    (chunksBy 2 [1, 2, 3]).flatten = [1, 2, 3] :=
  ⟨(c5_transmit_framing [1, 2, 3] (by decide) 2 (by decide)).2.2.1,
   (c5_transmit_framing [1, 2, 3] (by decide) 2 (by decide)).2.2.2.2.2.1⟩

/-- Claim C9: a length-channel read yielding fewer than 4 bytes (or a null
buffer, or an error) is "no signal yet" everywhere: the flush step performs
no draining and returns normally, the notification handler leaves
`expectedLength` unchanged, a single polling step leaves it unchanged, and a
whole polling loop fed only such reads leaves it unchanged — no path raises
an error (every embedded function is total, the source swallows the
exceptions). -/
theorem c9_short_reads_are_no_signal :
    (∀ env : FlushEnv, lengthNoSignal env.rxRead → flushChannels env = (0, 0)) ∧
    (∀ (el : Nat) (b : List Nat), b.length < 4 → rxNotifyHandler el (some b) = el) ∧
    (∀ el : Nat, rxNotifyHandler el none = el) ∧
    (∀ (el : Nat) (r : ChanRead), lengthNoSignal r → pollStep el r = el) ∧
    (∀ reads : Nat → ChanRead, (∀ j, lengthNoSignal (reads j)) →
      ∀ (n i el : Nat), pollLoopRun reads n i el = el) := by
  refine ⟨?_, ?_, fun el => rfl, pollStep_noSignal, pollLoopRun_noSignal⟩
  · intro env h
    have hzero : flushPendingLen env = 0 := by
      cases hr : env.rxRead with
      | error e => simp [flushPendingLen, hr]
      | ok o =>
          cases o with
          | none => simp [flushPendingLen, hr]
          | some b =>
              rw [hr] at h
              simp only [lengthNoSignal] at h
              simp [flushPendingLen, hr, Nat.not_le.mpr h]
    simp [flushChannels, hzero]
  · intro el b hb
    simp [rxNotifyHandler, hb]

/-- Witness for `c9_short_reads_are_no_signal` at concrete short reads. -/
theorem c9_witness :
    flushChannels ⟨Except.error (), fun _ => Except.ok none, fun _ => 0⟩ = (0, 0) ∧
    rxNotifyHandler 5 (some [1, 2, 3]) = 5 ∧
    pollStep 5 (Except.ok (some [1, 2])) = 5 :=
  ⟨c9_short_reads_are_no_signal.1 ⟨Except.error (), fun _ => Except.ok none, fun _ => 0⟩
      True.intro,
   c9_short_reads_are_no_signal.2.1 5 [1, 2, 3] (by decide),
   c9_short_reads_are_no_signal.2.2.2.1 5 (Except.ok (some [1, 2]))
     (by simp [lengthNoSignal])⟩

/-- If a pending frame is positive, the drain loop performs at least one
read. -/
theorem drainLoop_start_count (dataReads : Nat → ChanRead) (dataDur : Nat → Nat)
    (len fuel : Nat) (hlen : 0 < len) :
    1 ≤ (drainLoop dataReads dataDur len 1000 (fuel + 1) 0 0 0).1 := by
  rw [drainLoop]
  rw [if_pos ⟨hlen, by omega⟩]
  cases hr : dataReads 0 with
  | error e => simp
  | ok o =>
      cases o with
      | none => simp
      | some c =>
          by_cases hc : c.length = 0
          · simp [hc]
          · simp only [hc, if_false]
            have := drainLoop_count_ge dataReads dataDur len 1000 fuel (0 + 1)
              (0 + c.length) (0 + dataDur 0)
            omega

/-- If every data read takes at least the full 1-second budget, the drain
loop stops after at most one read. -/
theorem drainLoop_slow_reads (dataReads : Nat → ChanRead) (dataDur : Nat → Nat)
    (len fuel : Nat) (hdur : ∀ j, 1000 ≤ dataDur j) :
    (drainLoop dataReads dataDur len 1000 fuel 0 0 0).1 ≤ 1 := by
  cases fuel with
  | zero => simp [drainLoop]
  | succ fuel =>
      rw [drainLoop]
      split
      · cases hr : dataReads 0 with
        | error e => simp
        | ok o =>
            cases o with
            | none => simp
            | some c =>
                by_cases hc : c.length = 0
                · simp [hc]
                · simp only [hc, if_false]
                  rw [drainLoop_deadline dataReads dataDur len 1000 fuel 1 (0 + c.length)
                    (0 + dataDur 0) (by have := hdur 0; omega)]
      · simp

/-- The environment exhibiting the C3 counterexample: a first notification
carries length 5, a second carries length 0, and every poll read errors. -/
def c3Env : ExchangeEnv :=
  { notifs := [some [0, 0, 0, 5], some [0, 0, 0, 0]],
    pollReads := fun _ => Except.error (),
    retryPollReads := fun _ => Except.error (),
    dataReads := fun _ => Except.ok none,
    dataDur := fun _ => 1,
    t0 := 0, extraElapsed := 0, method := "m", params := none }

/-- Claim C3 counterexample: in `c3Env`, `expectedLength` becomes the positive
value 5 after the first notification, a later ≥4-byte notification of value 0
resets it, and the orchestrator then performs the retry — so "retry only if
expectedLength never became positive" is false of the code; the line-310 test
looks only at the current value. -/
theorem c3_counterexample :
    elAfterNotifs (c3Env.notifs.take 1) = 5 ∧
    0 < elAfterNotifs (c3Env.notifs.take 1) ∧
    retryPerformed c3Env = true := by
  decide

/-- Claim C3 (amended): the orchestrator retries iff `expectedLength` is zero
at the line-310 check (`received` is necessarily empty there: no data read
precedes the check); it performs at most one retry — the retry block is
straight-line code, so the attempt count is at most 2; and the rebuilt retry
request has a strictly larger (hence fresh) `Date.now()` id — the mandatory
1000ms settle sleep alone advances the clock — while keeping the same `src`,
`method` and `params`. -/
theorem c3_amended (env : ExchangeEnv) :
    (retryPerformed env = true ↔ elAfterPrimaryPoll env = 0) ∧
    receivedAtRetryCheck = [] ∧
    attemptCount env ≤ 2 ∧
    (primaryRequest env).id < (retryRequest env).id ∧
    (retryRequest env).src = (primaryRequest env).src ∧
    (retryRequest env).method = (primaryRequest env).method ∧
    (retryRequest env).params = (primaryRequest env).params := by
  refine ⟨?_, rfl, ?_, ?_, rfl, rfl, rfl⟩
  · simp [retryPerformed, retryCondition, receivedAtRetryCheck]
  · unfold attemptCount
    split <;> omega
  · show env.t0 < retryTime env
    unfold retryTime
    omega

/-- Witness for `c3_amended` at the concrete environment. -/
theorem c3_amended_witness :
    (retryPerformed c3Env = true ↔ elAfterPrimaryPoll c3Env = 0) ∧
    attemptCount c3Env ≤ 2 :=
  ⟨(c3_amended c3Env).1, (c3_amended c3Env).2.2.1⟩

/-- Claim C6: the flush never fails its caller (the embedded function is
total: the try/catch in the source swallows every read error); with no pending
frame (error, null, short buffer, or zero length) it performs no data reads
and no state change — so flushing twice with no new frame is a no-op; with a
pending frame it performs at least one and at most `len` data reads, stops no
later than one read past the first empty/error read, and respects the
1-second deadline (reads at least as slow as the budget permit at most one). -/
theorem c6_flush_bounded (env : FlushEnv) :
    (flushPendingLen env = 0 → flushChannels env = (0, 0)) ∧
    (flushChannels env).1 ≤ flushPendingLen env ∧
    (0 < flushPendingLen env → 1 ≤ (flushChannels env).1) ∧
    (∀ j, drainBreakRead (env.dataReads j) → (flushChannels env).1 ≤ j + 1) ∧
    ((∀ j, 1000 ≤ env.dataDur j) → (flushChannels env).1 ≤ 1) := by
  by_cases hlen : 0 < flushPendingLen env
  · have hne : flushPendingLen env ≠ 0 := Nat.pos_iff_ne_zero.mp hlen
    have hfc : flushChannels env = drainLoop env.dataReads env.dataDur
        (flushPendingLen env) 1000 (flushPendingLen env) 0 0 0 := by
      simp [flushChannels, hlen]
    refine ⟨fun h => absurd h hne, ?_, ?_, ?_, ?_⟩
    · rw [hfc]
      have := drainLoop_count_le env.dataReads env.dataDur (flushPendingLen env) 1000
        (flushPendingLen env) 0 0 0 hlen
      omega
    · intro _
      rw [hfc]
      rcases Nat.exists_eq_succ_of_ne_zero hne with ⟨L, hL⟩
      rw [hL]
      have := drainLoop_start_count env.dataReads env.dataDur (flushPendingLen env) L
        hlen
      rw [hL] at this
      exact this
    · intro j hj
      rw [hfc]
      exact drainLoop_stop_at_break env.dataReads env.dataDur (flushPendingLen env) 1000
        j hj (flushPendingLen env) 0 0 0 (Nat.zero_le j)
    · intro hdur
      rw [hfc]
      exact drainLoop_slow_reads env.dataReads env.dataDur (flushPendingLen env)
        (flushPendingLen env) hdur
  · have h0 : flushPendingLen env = 0 := Nat.eq_zero_of_not_pos hlen
    have hfc : flushChannels env = (0, 0) := by
      simp [flushChannels, h0]
    refine ⟨fun _ => hfc, ?_, fun h => absurd h hlen, fun j _ => ?_, fun _ => ?_⟩
    · rw [hfc, h0]
    · rw [hfc]
      omega
    · rw [hfc]
      omega

/-- Witness for `c6_flush_bounded`: a zero-length pending frame flushes to a
no-op, and a 5-byte frame whose first data read errors stops at one read. -/
theorem c6_flush_bounded_witness :
    flushChannels ⟨Except.ok (some [0, 0, 0, 0]), fun _ => Except.ok (some [1]),
      fun _ => 0⟩ = (0, 0) ∧
    (flushChannels ⟨Except.ok (some [0, 0, 0, 5]), fun _ => Except.error (),
      fun _ => 0⟩).1 ≤ 1 :=
  ⟨(c6_flush_bounded ⟨Except.ok (some [0, 0, 0, 0]), fun _ => Except.ok (some [1]),
      fun _ => 0⟩).1 rfl,
   (c6_flush_bounded ⟨Except.ok (some [0, 0, 0, 5]), fun _ => Except.error (),
      fun _ => 0⟩).2.2.2.1 0 True.intro⟩

/-- Claim C7: decode fails with the empty-payload error exactly when the
decoded text trims to the empty string; on non-blank text whose parse fails
it fails with the invalid-JSON error carrying the JSON-quoted raw text (the
`console.error(JSON.stringify(jsonText))` diagnostic of line 410); on a
successful parse it returns the parsed value; and the writes the exchange
performs do not depend on the data-channel reads or the parser, so a decode
failure can never cause a retransmission — all writes precede the decode and
their count is fixed by the length-channel history alone. -/
theorem c7_decode_classification (parse : String → Option Json) (text : String) :
    (decodeResponse parse text = .emptyErr ↔ jsTrim text = "") ∧
    (parse text = none → jsTrim text ≠ "" →
      decodeResponse parse text = .invalidJson (stringify (.str text))) ∧
    (∀ v, parse text = some v → jsTrim text ≠ "" →
      decodeResponse parse text = .parsed v) ∧
    (∀ env : ExchangeEnv, ∀ dr1 dr2 : Nat → ChanRead, ∀ dd1 dd2 : Nat → Nat,
      exchangeWrites { env with dataReads := dr1, dataDur := dd1 } =
        exchangeWrites { env with dataReads := dr2, dataDur := dd2 }) := by
  refine ⟨?_, ?_, ?_, ?_⟩
  · by_cases h : jsTrim text = ""
    · simp [decodeResponse, h]
    · simp only [decodeResponse, if_neg h]
      cases hp : parse text <;> simp [h]
  · intro hp hne
    simp [decodeResponse, if_neg hne, hp]
  · intro v hp hne
    simp [decodeResponse, if_neg hne, hp]
  · intro env dr1 dr2 dd1 dd2
    rfl

/-- Witness for `c7_decode_classification` at a failing parser and the
non-blank text "x". -/
theorem c7_witness :
    decodeResponse (fun _ => none) "x" = DecodeOutcome.invalidJson
      (stringify (.str "x")) :=
  (c7_decode_classification (fun _ => none) "x").2.1 rfl (by decide)

/-- Claim C8 counterexample: in best-effort mode, with instantaneous reads
that always return an empty chunk, the loop exits at clock 5250 — the checks
sit between backoff sleeps of 250, 300, ..., 500ms, so the exit overshoots
the 5-second budget; "exits after at most 5 seconds" is false as stated. -/
theorem c8_counterexample :
    recvLoop (fun _ => Except.ok (some [])) (fun _ => 0) (fun _ => 0) true 5000
      100 0 [] 0 0 = some ([], 5250, 12) ∧
    5000 < 5250 := by
  decide

/-- Claim C8 (amended): with per-read durations in `[1, D]` the loop always
terminates within fuel covering the budget; the best-effort exit clock lies
in `[5000, 5000 + D + 500]` (the budget plus at most one read and one
backoff); the known-length loop exits only with enough bytes or with an exit
clock in `(20000, 20000 + D + 500]`; and the backoff before the next read
after the n-th consecutive empty read is `200 + 50·n`, capped at 500ms. -/
theorem c8_amended (reads : Nat → ChanRead) (dur : Nat → Nat) (expSeq : Nat → Nat)
    (D : Nat) (hdur : ∀ j, 1 ≤ dur j ∧ dur j ≤ D) :
    maxDurationMs true = 5000 ∧
    maxDurationMs false = 20000 ∧
    (∀ bestEffort : Bool,
      (recvLoop reads dur expSeq bestEffort (maxDurationMs bestEffort)
        (maxDurationMs bestEffort + 2) 0 [] 0 0).isSome) ∧
    (∀ (fuel : Nat) (res : List Nat) (t a : Nat),
      recvLoop reads dur expSeq true 5000 fuel 0 [] 0 0 = some (res, t, a) →
      5000 ≤ t ∧ t ≤ 5000 + D + 500) ∧
    (∀ (fuel : Nat) (res : List Nat) (t a : Nat),
      recvLoop reads dur expSeq false 20000 fuel 0 [] 0 0 = some (res, t, a) →
      (expSeq a ≤ res.length ∨ 20000 < t) ∧ t ≤ 20000 + D + 500) ∧
    (∀ n, emptyBackoff n ≤ 500) ∧
    (∀ n, n ≤ 6 → emptyBackoff n = 200 + 50 * n) := by
  refine ⟨rfl, rfl, ?_, ?_, ?_, emptyBackoff_le, emptyBackoff_eq⟩
  · intro bestEffort
    exact recvLoop_isSome reads dur expSeq bestEffort (maxDurationMs bestEffort)
      (fun j => (hdur j).1) (maxDurationMs bestEffort + 2) 0 [] 0 0
      (by omega) (by omega)
  · intro fuel res t a heq
    constructor
    · exact recvLoop_bestEffort_exit_ge reads dur expSeq 5000 fuel 0 [] 0 0 res t a heq
    · exact recvLoop_exit_le reads dur expSeq true 5000 D (fun j => (hdur j).2)
        fuel 0 [] 0 0 res t a (by omega) heq
  · intro fuel res t a heq
    constructor
    · exact recvLoop_known_exit reads dur expSeq 20000 fuel 0 [] 0 0 res t a heq
    · exact recvLoop_exit_le reads dur expSeq false 20000 D (fun j => (hdur j).2)
        fuel 0 [] 0 0 res t a (by omega) heq

/-- Witness for `c8_amended` at unit-duration empty reads. -/
theorem c8_amended_witness :
    (recvLoop (fun _ => Except.ok (some [])) (fun _ => 1) (fun _ => 0) true
      (maxDurationMs true) (maxDurationMs true + 2) 0 [] 0 0).isSome ∧
    emptyBackoff 3 = 200 + 50 * 3 :=
  ⟨(c8_amended (fun _ => Except.ok (some [])) (fun _ => 1) (fun _ => 0) 1
      (fun _ => ⟨Nat.le_refl 1, Nat.le_refl 1⟩)).2.2.1 true,
   (c8_amended (fun _ => Except.ok (some [])) (fun _ => 1) (fun _ => 0) 1
      (fun _ => ⟨Nat.le_refl 1, Nat.le_refl 1⟩)).2.2.2.2.2.2 3 (by omega)⟩

/-- Claim C10: the receive mode is the line-353 constant computed from
`expectedLength` at loop entry (`bestEffort` iff zero); while in best-effort
mode the loop condition never consults `expectedLength`, so any history of
late notification updates yields identical loop behaviour; and a best-effort
loop only exits once the full 5-second window has elapsed. -/
theorem c10_mode_fixed_at_entry (reads : Nat → ChanRead) (dur : Nat → Nat)
    (expSeq expSeq2 : Nat → Nat) :
    bestEffortOf 0 = true ∧
    (∀ el, bestEffortOf el = true ↔ el = 0) ∧
    (∀ (fuel i : Nat) (received : List Nat) (consecutiveEmpty now : Nat),
      recvLoop reads dur expSeq true (maxDurationMs true) fuel i received
        consecutiveEmpty now =
      recvLoop reads dur expSeq2 true (maxDurationMs true) fuel i received
        consecutiveEmpty now) ∧
    (∀ (fuel : Nat) (res : List Nat) (t a : Nat),
      recvLoop reads dur expSeq true (maxDurationMs true) fuel 0 [] 0 0 =
        some (res, t, a) →
      5000 ≤ t) := by
  refine ⟨rfl, ?_, ?_, ?_⟩
  · intro el
    simp [bestEffortOf]
  · intro fuel i received c now
    exact recvLoop_bestEffort_expSeq reads dur expSeq expSeq2 (maxDurationMs true)
      fuel i received c now
  · intro fuel res t a heq
    exact recvLoop_bestEffort_exit_ge reads dur expSeq (maxDurationMs true)
      fuel 0 [] 0 0 res t a heq

/-- Witness for `c10_mode_fixed_at_entry`: a late positive length value does
not change the best-effort loop, and the empty-read run of the concrete
environment exits at 5250 ≥ 5000. -/
theorem c10_witness :
    (recvLoop (fun _ => Except.ok (some [])) (fun _ => 0) (fun _ => 0) true
      (maxDurationMs true) 3 0 [] 0 0 =
     recvLoop (fun _ => Except.ok (some [])) (fun _ => 0) (fun _ => 7) true
      (maxDurationMs true) 3 0 [] 0 0) ∧
    5000 ≤ 5250 :=
  ⟨(c10_mode_fixed_at_entry (fun _ => Except.ok (some [])) (fun _ => 0)
      (fun _ => 0) (fun _ => 7)).2.2.1 3 0 [] 0 0,
   (c10_mode_fixed_at_entry (fun _ => Except.ok (some [])) (fun _ => 0)
      (fun _ => 0) (fun _ => 7)).2.2.2 100 [] 5250 12 (by decide)⟩
